import Mathlib

/-!
Verification of the savings-vault accounting core.

The development shallowly embeds two contracts:

* `SavingsVault` (the savings ledger): per-user accounts, deposits,
  backend-credited deposits, rate-limited authorization-gated auto-saves,
  withdrawals with yield-pool redemption of shortfalls, pause gating and
  admin configuration.
* `VVSYieldStrategy` (the pool adapter): splits a USDC deposit 50/50 via a
  swap, adds liquidity, tracks LP tokens per user, and redeems positions.

Solidity 0.8 checked arithmetic is modelled explicitly: every `+=` on a
`uint256` is guarded by `UINT256_MAX` and a failing guard aborts the whole
operation (panic 0x11), mirroring revert semantics.  External calls (the
USDC token, the yield strategy, the exchange router) are modelled as
explicit parameters giving the outcome of each call, with `none` standing
for a revert of the callee, which propagates as a revert of the whole
transaction (there is no try/catch in either contract).
-/

namespace SavingsVault

/-- Largest representable `uint256` value. -/
def UINT256_MAX : Nat := 2 ^ 256 - 1

/-- `MIN_DEPOSIT = 1e6` (1 USDC, 6 decimals). -/
def MIN_DEPOSIT : Nat := 1000000

/-- `MAX_SAVE_AMOUNT = 10000e6` (10,000 USDC). -/
def MAX_SAVE_AMOUNT : Nat := 10000000000

/-- `MIN_SAVE_INTERVAL = 1 days` (in seconds). -/
def MIN_SAVE_INTERVAL : Nat := 86400

/-- Trust mode for automation: `MANUAL` (user approves each save) or
`AUTO` (backend executes automatically). -/
inductive TrustMode where
  | MANUAL
  | AUTO
deriving DecidableEq, Repr

/-- The `UserAccount` struct of the vault. -/
structure UserAccount where
  totalDeposited : Nat
  totalWithdrawn : Nat
  currentBalance : Nat
  weeklyGoal : Nat
  safetyBuffer : Nat
  lastSaveTimestamp : Nat
  isActive : Bool
  trustMode : TrustMode
deriving DecidableEq, Repr

/-- Default (never-created) account: the zero value of a Solidity mapping. -/
def emptyAccount : UserAccount :=
  { totalDeposited := 0, totalWithdrawn := 0, currentBalance := 0,
    weeklyGoal := 0, safetyBuffer := 0, lastSaveTimestamp := 0,
    isActive := false, trustMode := TrustMode.MANUAL }

/-- Vault storage.  Addresses are `Nat`; address 0 plays the role of
`address(0)` (in particular, `yieldStrategy = 0` means no strategy is
configured).  `forwardedToPool` is a ghost accumulator recording the total
USDC amount handed to `_depositToYield`; the contract itself keeps no such
counter, the ghost is only read by observability statements. -/
structure VaultState where
  accounts : Nat → UserAccount
  totalValueLocked : Nat
  yieldStrategy : Nat
  backendServer : Nat
  owner : Nat
  paused : Bool
  forwardedToPool : Nat

/-- Error outcomes of vault operations.  The named errors mirror the
`SavingsVault__*` custom errors; `overflow` stands for the arithmetic
panic (0x11) of checked `uint256` arithmetic; `enforcedPause`,
`expectedPause` and `notOwner` come from the Pausable/Ownable bases;
`transferFailed` is a revert of the USDC token call, `strategyReverted` a
revert of the yield-strategy call. -/
inductive VErr where
  | invalidAmount
  | insufficientBalance
  | accountNotActive
  | unauthorizedCaller
  | saveIntervalNotMet
  | amountExceedsLimit
  | zeroAddress
  | goalNotPositive
  | accountAlreadyExists
  | enforcedPause
  | expectedPause
  | notOwner
  | overflow
  | transferFailed
  | strategyReverted
deriving DecidableEq, Repr

/-- Point update of the account mapping. -/
def setAccount (f : Nat → UserAccount) (u : Nat) (a : UserAccount) : Nat → UserAccount :=
  fun v => if v = u then a else f v

/-- The common ledger-credit step of `deposit`, `depositFor` and
`autoSave`: `totalDeposited += amount; currentBalance += amount;
s_totalValueLocked += amount`, each a checked `uint256` addition. -/
def creditLedger (s : VaultState) (user amount : Nat) : Option VaultState :=
  if (s.accounts user).totalDeposited + amount ≤ UINT256_MAX ∧
      (s.accounts user).currentBalance + amount ≤ UINT256_MAX ∧
      s.totalValueLocked + amount ≤ UINT256_MAX then
    some { s with
      accounts := setAccount s.accounts user
        { s.accounts user with
          totalDeposited := (s.accounts user).totalDeposited + amount,
          currentBalance := (s.accounts user).currentBalance + amount },
      totalValueLocked := s.totalValueLocked + amount }
  else none

/-- `_depositToYield` as seen from the vault: if a strategy is configured
the full `amount` is forwarded to `s_yieldStrategy.deposit`; `stratLp`
gives that external call's outcome (`none` = the strategy reverted, which
reverts the enclosing transaction — there is no try/catch). -/
def routeToYield (s : VaultState) (amount : Nat) (stratLp : Option Nat) :
    Except VErr VaultState :=
  if s.yieldStrategy ≠ 0 then
    match stratLp with
    | none => .error .strategyReverted
    | some _lp => .ok { s with forwardedToPool := s.forwardedToPool + amount }
  else .ok s

/-- `createAccount(weeklyGoal, safetyBuffer, trustMode)`. -/
def createAccount (s : VaultState) (caller weeklyGoal safetyBuffer : Nat)
    (mode : TrustMode) : Except VErr VaultState :=
  if (s.accounts caller).isActive then .error .accountAlreadyExists
  else if weeklyGoal = 0 then .error .goalNotPositive
  else .ok { s with
    accounts := setAccount s.accounts caller
      { totalDeposited := 0, totalWithdrawn := 0, currentBalance := 0,
        weeklyGoal := weeklyGoal, safetyBuffer := safetyBuffer,
        lastSaveTimestamp := 0, isActive := true, trustMode := mode } }

/-- `deposit(amount)`.  `transferOk` is the outcome of
`safeTransferFrom(msg.sender, vault, amount)`. -/
def deposit (s : VaultState) (caller amount : Nat) (transferOk : Bool)
    (stratLp : Option Nat) : Except VErr VaultState :=
  if s.paused then .error .enforcedPause
  else if amount < MIN_DEPOSIT then .error .invalidAmount
  else if (s.accounts caller).isActive = false then .error .accountNotActive
  else if transferOk = false then .error .transferFailed
  else
    match creditLedger s caller amount with
    | none => .error .overflow
    | some s1 => routeToYield s1 amount stratLp

/-- `depositFor(user, amount)`: backend-credited deposit; the USDC is
already in the vault, so there is no transfer step. -/
def depositFor (s : VaultState) (caller user amount : Nat)
    (stratLp : Option Nat) : Except VErr VaultState :=
  if s.paused then .error .enforcedPause
  else if caller ≠ s.backendServer then .error .unauthorizedCaller
  else if amount < MIN_DEPOSIT then .error .invalidAmount
  else if (s.accounts user).isActive = false then .error .accountNotActive
  else
    match creditLedger s user amount with
    | none => .error .overflow
    | some s1 => routeToYield s1 amount stratLp

/-- The trust-mode dispatch of `autoSave`: in AUTO mode only the backend
server may call, in MANUAL mode only the user. -/
def authBlocked (mode : TrustMode) (caller user backend : Nat) : Bool :=
  match mode with
  | TrustMode.AUTO => caller != backend
  | TrustMode.MANUAL => caller != user

/-- Tail of `autoSave` after all checks passed: pull the USDC, credit the
ledger, stamp `lastSaveTimestamp = block.timestamp`, route to yield. -/
def autoSaveCommit (s : VaultState) (user amount now : Nat) (transferOk : Bool)
    (stratLp : Option Nat) : Except VErr VaultState :=
  if transferOk = false then .error .transferFailed
  else
    match creditLedger s user amount with
    | none => .error .overflow
    | some s1 =>
        let s2 := { s1 with
          accounts := setAccount s1.accounts user
            { s1.accounts user with lastSaveTimestamp := now } }
        routeToYield s2 amount stratLp

/-- `autoSave(user, amount)` at time `now` (`block.timestamp`). -/
def autoSave (s : VaultState) (caller user amount now : Nat) (transferOk : Bool)
    (stratLp : Option Nat) : Except VErr VaultState :=
  if s.paused then .error .enforcedPause
  else if (s.accounts user).isActive = false then .error .accountNotActive
  else if amount = 0 ∨ amount > MAX_SAVE_AMOUNT then .error .amountExceedsLimit
  else if authBlocked (s.accounts user).trustMode caller user s.backendServer then
    .error .unauthorizedCaller
  else if (s.accounts user).lastSaveTimestamp = 0 then
    autoSaveCommit s user amount now transferOk stratLp
  else if (s.accounts user).lastSaveTimestamp + MIN_SAVE_INTERVAL ≤ UINT256_MAX then
    if now < (s.accounts user).lastSaveTimestamp + MIN_SAVE_INTERVAL then
      .error .saveIntervalNotMet
    else autoSaveCommit s user amount now transferOk stratLp
  else .error .overflow

/-- `_withdrawFromYield`'s LP computation (source lines 330-338): withdraw
everything when the needed USDC is at least the user's strategy value,
otherwise the proportional share, rounding down. -/
def lpToWithdraw (userLpTokens userValueInStrategy usdcNeeded : Nat) : Nat :=
  if userValueInStrategy ≤ usdcNeeded then userLpTokens
  else userLpTokens * usdcNeeded / userValueInStrategy

/-- `_withdrawFromYield` up to the strategy call: returns `none` when the
user holds no LP tokens (the early `return 0`, no strategy call is made),
otherwise the LP amount passed to `s_yieldStrategy.withdraw`. -/
def withdrawFromYieldLp (userLpTokens userValueInStrategy usdcNeeded : Nat) :
    Option Nat :=
  if userLpTokens = 0 then none
  else some (lpToWithdraw userLpTokens userValueInStrategy usdcNeeded)

/-- Bookkeeping tail of `withdraw`: `totalWithdrawn += amount` (checked),
`currentBalance -= amount` (guarded by the sufficiency check),
`s_totalValueLocked -= amount` (checked), then the payout transfer. -/
def withdrawCommit (s : VaultState) (caller amount : Nat) (payoutOk : Bool) :
    Except VErr VaultState :=
  if (s.accounts caller).totalWithdrawn + amount ≤ UINT256_MAX ∧
      amount ≤ s.totalValueLocked then
    if payoutOk = false then .error .transferFailed
    else .ok { s with
      accounts := setAccount s.accounts caller
        { s.accounts caller with
          totalWithdrawn := (s.accounts caller).totalWithdrawn + amount,
          currentBalance := (s.accounts caller).currentBalance - amount },
      totalValueLocked := s.totalValueLocked - amount }
  else .error .overflow

/-- `withdraw(amount)`.  `vaultBal` is the vault's live USDC balance,
`userLp`/`userVal` are the strategy's `userLiquidityTokens(user)` and
`getUserValue(user)` answers, `stratW lp` the outcome of
`s_yieldStrategy.withdraw(user, lp)`, `payoutOk` the outcome of the final
`safeTransfer`. -/
def withdraw (s : VaultState) (caller amount vaultBal userLp userVal : Nat)
    (stratW : Nat → Option Nat) (payoutOk : Bool) : Except VErr VaultState :=
  if s.paused then .error .enforcedPause
  else if amount = 0 then .error .invalidAmount
  else if (s.accounts caller).isActive = false then .error .accountNotActive
  else if (s.accounts caller).currentBalance < amount then .error .insufficientBalance
  else if vaultBal < amount ∧ s.yieldStrategy ≠ 0 then
    match withdrawFromYieldLp userLp userVal (amount - vaultBal) with
    | none => withdrawCommit s caller amount payoutOk
    | some lp =>
        match stratW lp with
        | none => .error .strategyReverted
        | some _usdc => withdrawCommit s caller amount payoutOk
  else withdrawCommit s caller amount payoutOk

/-- `updateGoal(newWeeklyGoal)`. -/
def updateGoal (s : VaultState) (caller newGoal : Nat) : Except VErr VaultState :=
  if (s.accounts caller).isActive = false then .error .accountNotActive
  else if newGoal = 0 then .error .goalNotPositive
  else .ok { s with
    accounts := setAccount s.accounts caller
      { s.accounts caller with weeklyGoal := newGoal } }

/-- `updateTrustMode(newMode)`. -/
def updateTrustMode (s : VaultState) (caller : Nat) (mode : TrustMode) :
    Except VErr VaultState :=
  if (s.accounts caller).isActive = false then .error .accountNotActive
  else .ok { s with
    accounts := setAccount s.accounts caller
      { s.accounts caller with trustMode := mode } }

/-- `pause()` (onlyOwner; `_pause` itself requires the not-paused state). -/
def pause (s : VaultState) (caller : Nat) : Except VErr VaultState :=
  if caller ≠ s.owner then .error .notOwner
  else if s.paused then .error .enforcedPause
  else .ok { s with paused := true }

/-- `unpause()` (onlyOwner; `_unpause` requires the paused state). -/
def unpause (s : VaultState) (caller : Nat) : Except VErr VaultState :=
  if caller ≠ s.owner then .error .notOwner
  else if s.paused = false then .error .expectedPause
  else .ok { s with paused := false }

/-- `setYieldStrategy(addr)` (onlyOwner, nonzero address). -/
def setYieldStrategy (s : VaultState) (caller addr : Nat) : Except VErr VaultState :=
  if caller ≠ s.owner then .error .notOwner
  else if addr = 0 then .error .zeroAddress
  else .ok { s with yieldStrategy := addr }

/-- `setBackendServer(addr)` (onlyOwner, nonzero address). -/
def setBackendServer (s : VaultState) (caller addr : Nat) : Except VErr VaultState :=
  if caller ≠ s.owner then .error .notOwner
  else if addr = 0 then .error .zeroAddress
  else .ok { s with backendServer := addr }

/-- One vault transaction together with the outcomes of the external
calls it makes. -/
inductive Op where
  | createAccount (caller weeklyGoal safetyBuffer : Nat) (mode : TrustMode)
  | deposit (caller amount : Nat) (transferOk : Bool) (stratLp : Option Nat)
  | depositFor (caller user amount : Nat) (stratLp : Option Nat)
  | autoSave (caller user amount now : Nat) (transferOk : Bool) (stratLp : Option Nat)
  | withdraw (caller amount vaultBal userLp userVal : Nat)
      (stratW : Nat → Option Nat) (payoutOk : Bool)
  | updateGoal (caller newGoal : Nat)
  | updateTrustMode (caller : Nat) (mode : TrustMode)
  | pause (caller : Nat)
  | unpause (caller : Nat)
  | setYieldStrategy (caller addr : Nat)
  | setBackendServer (caller addr : Nat)

/-- Execute one transaction. -/
def step (s : VaultState) : Op → Except VErr VaultState
  | Op.createAccount c g b m => createAccount s c g b m
  | Op.deposit c a t lp => deposit s c a t lp
  | Op.depositFor c u a lp => depositFor s c u a lp
  | Op.autoSave c u a n t lp => autoSave s c u a n t lp
  | Op.withdraw c a vb ul uv sw p => withdraw s c a vb ul uv sw p
  | Op.updateGoal c g => updateGoal s c g
  | Op.updateTrustMode c m => updateTrustMode s c m
  | Op.pause c => pause s c
  | Op.unpause c => unpause s c
  | Op.setYieldStrategy c a => setYieldStrategy s c a
  | Op.setBackendServer c a => setBackendServer s c a

/-- Revert semantics: a failing transaction leaves the state unchanged. -/
def stepKeep (s : VaultState) (op : Op) : VaultState :=
  match step s op with
  | .ok s1 => s1
  | .error _ => s

/-- Run a sequence of transactions. -/
def runKeep (s : VaultState) (ops : List Op) : VaultState :=
  ops.foldl stepKeep s

/-- State right after the constructor: empty mapping, zero TVL, no
strategy, no backend server, deployer is the owner, not paused. -/
def initialVault (deployer : Nat) : VaultState :=
  { accounts := fun _ => emptyAccount, totalValueLocked := 0,
    yieldStrategy := 0, backendServer := 0, owner := deployer,
    paused := false, forwardedToPool := 0 }

/-- View `getUserTotalBalance(user)` as written in the source: it reads
the ledger balance into a local, but when a strategy is configured it
returns only the strategy's `getUserValue(user)` answer (`yieldValue`
here, an outcome of that external view call). -/
def getUserTotalBalance (s : VaultState) (user yieldValue : Nat) : Nat :=
  let accountBalance := (s.accounts user).currentBalance
  if s.yieldStrategy ≠ 0 then yieldValue
  else accountBalance

/-- Modelled from the spec: the spec's reading of `getUserTotalBalance`
("idle ledger balance plus live pool value if pooled"), kept separate for
comparison with the source definition above. -/
def specGetUserTotalBalance (s : VaultState) (user yieldValue : Nat) : Nat :=
  if s.yieldStrategy ≠ 0 then (s.accounts user).currentBalance + yieldValue
  else (s.accounts user).currentBalance

/-- Modelled from the spec: the Authorization Gate's decision function
`canInvoke(trustMode, caller, ownerId, trustedOperator)` — true iff
(AUTO and caller is the trusted operator) or (MANUAL and caller is the
owner). -/
def canInvoke (mode : TrustMode) (caller ownerId trustedOperator : Nat) : Bool :=
  (mode == TrustMode.AUTO && caller == trustedOperator) ||
    (mode == TrustMode.MANUAL && caller == ownerId)

/-- Sum of `currentBalance` over a list of addresses. -/
def sumBalances (s : VaultState) (users : List Nat) : Nat :=
  (users.map fun u => (s.accounts u).currentBalance).sum

@[simp]
theorem setAccount_same (f : Nat → UserAccount) (u : Nat) (a : UserAccount) :
    setAccount f u a u = a := by
  simp [setAccount]

theorem setAccount_ne (f : Nat → UserAccount) (u : Nat) (a : UserAccount)
    {v : Nat} (h : v ≠ u) : setAccount f u a v = f v := by
  simp [setAccount, h]

theorem creditLedger_some {s : VaultState} {user amount : Nat} {s1 : VaultState}
    (h : creditLedger s user amount = some s1) :
    s1 = { s with
      accounts := setAccount s.accounts user
        { s.accounts user with
          totalDeposited := (s.accounts user).totalDeposited + amount,
          currentBalance := (s.accounts user).currentBalance + amount },
      totalValueLocked := s.totalValueLocked + amount } := by
  unfold creditLedger at h
  split at h
  · exact (Option.some.injEq _ _ ▸ h).symm
  · exact Option.noConfusion h

theorem routeToYield_ok {s : VaultState} {amount : Nat} {stratLp : Option Nat}
    {s1 : VaultState} (h : routeToYield s amount stratLp = .ok s1) :
    s1.accounts = s.accounts ∧ s1.totalValueLocked = s.totalValueLocked ∧
      s1.yieldStrategy = s.yieldStrategy ∧ s1.backendServer = s.backendServer ∧
      s1.paused = s.paused := by
  unfold routeToYield at h
  split at h
  · cases stratLp with
    | none => exact Except.noConfusion h
    | some lp =>
        simp only [Except.ok.injEq] at h
        subst h
        exact ⟨rfl, rfl, rfl, rfl, rfl⟩
  · simp only [Except.ok.injEq] at h
    subst h
    exact ⟨rfl, rfl, rfl, rfl, rfl⟩

theorem deposit_ok {s : VaultState} {caller amount : Nat} {tOk : Bool}
    {stratLp : Option Nat} {s1 : VaultState}
    (h : deposit s caller amount tOk stratLp = .ok s1) :
    s1.accounts caller = { s.accounts caller with
      totalDeposited := (s.accounts caller).totalDeposited + amount,
      currentBalance := (s.accounts caller).currentBalance + amount }
    ∧ (∀ v, v ≠ caller → s1.accounts v = s.accounts v)
    ∧ s1.totalValueLocked = s.totalValueLocked + amount := by
  unfold deposit at h
  split at h
  · exact Except.noConfusion h
  split at h
  · exact Except.noConfusion h
  split at h
  · exact Except.noConfusion h
  split at h
  · exact Except.noConfusion h
  rcases hc : creditLedger s caller amount with _ | s2
  · rw [hc] at h; exact Except.noConfusion h
  · rw [hc] at h
    have hs2 := creditLedger_some hc
    obtain ⟨hacc, _, _, _, _⟩ := routeToYield_ok h
    subst hs2
    refine ⟨by rw [hacc]; simp, fun v hv => by rw [hacc]; simp [setAccount_ne _ _ _ hv],
      by obtain ⟨_, htvl, _, _, _⟩ := routeToYield_ok h; simpa using htvl⟩

theorem depositFor_ok {s : VaultState} {caller user amount : Nat}
    {stratLp : Option Nat} {s1 : VaultState}
    (h : depositFor s caller user amount stratLp = .ok s1) :
    s1.accounts user = { s.accounts user with
      totalDeposited := (s.accounts user).totalDeposited + amount,
      currentBalance := (s.accounts user).currentBalance + amount }
    ∧ (∀ v, v ≠ user → s1.accounts v = s.accounts v)
    ∧ s1.totalValueLocked = s.totalValueLocked + amount := by
  unfold depositFor at h
  split at h
  · exact Except.noConfusion h
  split at h
  · exact Except.noConfusion h
  split at h
  · exact Except.noConfusion h
  split at h
  · exact Except.noConfusion h
  rcases hc : creditLedger s user amount with _ | s2
  · rw [hc] at h; exact Except.noConfusion h
  · rw [hc] at h
    have hs2 := creditLedger_some hc
    obtain ⟨hacc, _, _, _, _⟩ := routeToYield_ok h
    subst hs2
    refine ⟨by rw [hacc]; simp, fun v hv => by rw [hacc]; simp [setAccount_ne _ _ _ hv],
      by obtain ⟨_, htvl, _, _, _⟩ := routeToYield_ok h; simpa using htvl⟩

theorem autoSaveCommit_ok {s : VaultState} {user amount now : Nat} {tOk : Bool}
    {stratLp : Option Nat} {s1 : VaultState}
    (h : autoSaveCommit s user amount now tOk stratLp = .ok s1) :
    s1.accounts user = { s.accounts user with
      totalDeposited := (s.accounts user).totalDeposited + amount,
      currentBalance := (s.accounts user).currentBalance + amount,
      lastSaveTimestamp := now }
    ∧ (∀ v, v ≠ user → s1.accounts v = s.accounts v)
    ∧ s1.totalValueLocked = s.totalValueLocked + amount := by
  unfold autoSaveCommit at h
  split at h
  · exact Except.noConfusion h
  rcases hc : creditLedger s user amount with _ | s2
  · rw [hc] at h; exact Except.noConfusion h
  · rw [hc] at h
    have hs2 := creditLedger_some hc
    obtain ⟨hacc, _, _, _, _⟩ := routeToYield_ok h
    subst hs2
    refine ⟨by rw [hacc]; simp [setAccount], fun v hv => ?_,
      by obtain ⟨_, htvl, _, _, _⟩ := routeToYield_ok h; simpa using htvl⟩
    rw [hacc]
    simp [setAccount_ne _ _ _ hv, setAccount, hv]

theorem withdrawCommit_ok {s : VaultState} {caller amount : Nat} {payoutOk : Bool}
    {s1 : VaultState} (h : withdrawCommit s caller amount payoutOk = .ok s1) :
    s1 = { s with
      accounts := setAccount s.accounts caller
        { s.accounts caller with
          totalWithdrawn := (s.accounts caller).totalWithdrawn + amount,
          currentBalance := (s.accounts caller).currentBalance - amount },
      totalValueLocked := s.totalValueLocked - amount } := by
  unfold withdrawCommit at h
  split at h
  · split at h
    · exact Except.noConfusion h
    · simp only [Except.ok.injEq] at h
      exact h.symm
  · exact Except.noConfusion h

theorem withdraw_ok {s : VaultState} {caller amount vaultBal userLp userVal : Nat}
    {stratW : Nat → Option Nat} {payoutOk : Bool} {s1 : VaultState}
    (h : withdraw s caller amount vaultBal userLp userVal stratW payoutOk = .ok s1) :
    amount ≤ (s.accounts caller).currentBalance
    ∧ s1.accounts caller = { s.accounts caller with
        totalWithdrawn := (s.accounts caller).totalWithdrawn + amount,
        currentBalance := (s.accounts caller).currentBalance - amount }
    ∧ (∀ v, v ≠ caller → s1.accounts v = s.accounts v)
    ∧ s1.totalValueLocked = s.totalValueLocked - amount := by
  unfold withdraw at h
  split at h
  · exact Except.noConfusion h
  split at h
  · exact Except.noConfusion h
  split at h
  · exact Except.noConfusion h
  split at h
  · exact Except.noConfusion h
  rename_i hcb
  have hle : amount ≤ (s.accounts caller).currentBalance := Nat.le_of_not_lt hcb
  have hcommit : withdrawCommit s caller amount payoutOk = .ok s1 := by
    split at h
    · rcases hlp : withdrawFromYieldLp userLp userVal (amount - vaultBal) with _ | lp
      · rw [hlp] at h; exact h
      · rw [hlp] at h
        dsimp only at h
        rcases hsw : stratW lp with _ | u
        · rw [hsw] at h; exact Except.noConfusion h
        · rw [hsw] at h; exact h
    · exact h
  have hs1 := withdrawCommit_ok hcommit
  subst hs1
  exact ⟨hle, by simp, fun v hv => setAccount_ne _ _ _ hv, rfl⟩

/-- Per-account conservation: `totalDeposited = currentBalance +
totalWithdrawn` (the overflow-free form of `currentBalance =
totalDeposited - totalWithdrawn ∧ currentBalance ≥ 0`). -/
def accInv (a : UserAccount) : Prop :=
  a.totalDeposited = a.currentBalance + a.totalWithdrawn

/-- The conservation invariant over the whole account mapping. -/
def VaultInv (s : VaultState) : Prop :=
  ∀ u, accInv (s.accounts u)

theorem vaultInv_step {s : VaultState} {op : Op} {s1 : VaultState}
    (hs : step s op = .ok s1) (h : VaultInv s) : VaultInv s1 := by
  cases op with
  | createAccount c g b m =>
      simp only [step] at hs
      unfold createAccount at hs
      split at hs
      · exact Except.noConfusion hs
      split at hs
      · exact Except.noConfusion hs
      simp only [Except.ok.injEq] at hs
      subst hs
      intro v
      by_cases hv : v = c
      · subst hv; simp [accInv]
      · simpa [setAccount_ne _ _ _ hv] using h v
  | deposit c a t lp =>
      simp only [step] at hs
      obtain ⟨hc, ho, _⟩ := deposit_ok hs
      intro v
      by_cases hv : v = c
      · subst hv
        have hv0 := h v
        unfold accInv at hv0 ⊢
        rw [hc]
        simp
        omega
      · rw [ho v hv]; exact h v
  | depositFor c u a lp =>
      simp only [step] at hs
      obtain ⟨hc, ho, _⟩ := depositFor_ok hs
      intro v
      by_cases hv : v = u
      · subst hv
        have hv0 := h v
        unfold accInv at hv0 ⊢
        rw [hc]
        simp
        omega
      · rw [ho v hv]; exact h v
  | autoSave c u a n t lp =>
      simp only [step] at hs
      unfold autoSave at hs
      split at hs
      · exact Except.noConfusion hs
      split at hs
      · exact Except.noConfusion hs
      split at hs
      · exact Except.noConfusion hs
      split at hs
      · exact Except.noConfusion hs
      have key : ∀ s2, autoSaveCommit s u a n t lp = .ok s2 → VaultInv s2 := by
        intro s2 hcommit
        obtain ⟨hc, ho, _⟩ := autoSaveCommit_ok hcommit
        intro v
        by_cases hv : v = u
        · subst hv
          have hv0 := h v
          unfold accInv at hv0 ⊢
          rw [hc]
          simp
          omega
        · rw [ho v hv]; exact h v
      split at hs
      · exact key s1 hs
      split at hs
      · split at hs
        · exact Except.noConfusion hs
        · exact key s1 hs
      · exact Except.noConfusion hs
  | withdraw c a vb ul uv sw p =>
      simp only [step] at hs
      obtain ⟨hle, hc, ho, _⟩ := withdraw_ok hs
      intro v
      by_cases hv : v = c
      · subst hv
        have hv0 := h v
        unfold accInv at hv0 ⊢
        rw [hc]
        simp
        omega
      · rw [ho v hv]; exact h v
  | updateGoal c g =>
      simp only [step] at hs
      unfold updateGoal at hs
      split at hs
      · exact Except.noConfusion hs
      split at hs
      · exact Except.noConfusion hs
      simp only [Except.ok.injEq] at hs
      subst hs
      intro v
      by_cases hv : v = c
      · subst hv
        have hv0 := h v
        unfold accInv at hv0 ⊢
        simpa using hv0
      · simpa [setAccount_ne _ _ _ hv] using h v
  | updateTrustMode c m =>
      simp only [step] at hs
      unfold updateTrustMode at hs
      split at hs
      · exact Except.noConfusion hs
      simp only [Except.ok.injEq] at hs
      subst hs
      intro v
      by_cases hv : v = c
      · subst hv
        have hv0 := h v
        unfold accInv at hv0 ⊢
        simpa using hv0
      · simpa [setAccount_ne _ _ _ hv] using h v
  | pause c =>
      simp only [step] at hs
      unfold pause at hs
      split at hs
      · exact Except.noConfusion hs
      split at hs
      · exact Except.noConfusion hs
      simp only [Except.ok.injEq] at hs
      subst hs
      exact h
  | unpause c =>
      simp only [step] at hs
      unfold unpause at hs
      split at hs
      · exact Except.noConfusion hs
      split at hs
      · exact Except.noConfusion hs
      simp only [Except.ok.injEq] at hs
      subst hs
      exact h
  | setYieldStrategy c a =>
      simp only [step] at hs
      unfold setYieldStrategy at hs
      split at hs
      · exact Except.noConfusion hs
      split at hs
      · exact Except.noConfusion hs
      simp only [Except.ok.injEq] at hs
      subst hs
      exact h
  | setBackendServer c a =>
      simp only [step] at hs
      unfold setBackendServer at hs
      split at hs
      · exact Except.noConfusion hs
      split at hs
      · exact Except.noConfusion hs
      simp only [Except.ok.injEq] at hs
      subst hs
      exact h

theorem stepKeep_error {s : VaultState} {op : Op} {e : VErr}
    (hs : step s op = .error e) : stepKeep s op = s := by
  unfold stepKeep
  rw [hs]

theorem vaultInv_stepKeep (s : VaultState) (op : Op) (h : VaultInv s) :
    VaultInv (stepKeep s op) := by
  unfold stepKeep
  rcases hs : step s op with e | s1
  · exact h
  · exact vaultInv_step hs h

theorem vaultInv_runKeep {s : VaultState} (ops : List Op) (h : VaultInv s) :
    VaultInv (runKeep s ops) := by
  induction ops generalizing s with
  | nil => simpa [runKeep] using h
  | cons op rest ih =>
      have : runKeep s (op :: rest) = runKeep (stepKeep s op) rest := by
        simp [runKeep, List.foldl]
      rw [this]
      exact ih (vaultInv_stepKeep s op h)

theorem withdraw_insufficient {s : VaultState} {caller amount : Nat}
    (vaultBal userLp userVal : Nat) (stratW : Nat → Option Nat) (payoutOk : Bool)
    (h : (s.accounts caller).currentBalance < amount) :
    ∃ e, withdraw s caller amount vaultBal userLp userVal stratW payoutOk = .error e := by
  unfold withdraw
  split
  · exact ⟨_, rfl⟩
  split
  · exact ⟨_, rfl⟩
  split
  · exact ⟨_, rfl⟩
  exact ⟨_, rfl⟩

/-- C1.  For every account and every sequence of the ledger operations
(createAccount, deposit, depositFor, autoSave, withdraw — together with
the pause/admin transactions), after each operation the account satisfies
`currentBalance = totalDeposited - totalWithdrawn` and
`currentBalance ≥ 0`, and a withdrawal exceeding the balance is rejected
(it returns an error and leaves the state unchanged), never clamped. -/
theorem vault_conservation (deployer : Nat) (ops : List Op) (u : Nat) :
    ((((runKeep (initialVault deployer) ops).accounts u).currentBalance : ℤ)
        = (((runKeep (initialVault deployer) ops).accounts u).totalDeposited : ℤ)
          - (((runKeep (initialVault deployer) ops).accounts u).totalWithdrawn : ℤ))
    ∧ (0 : ℤ) ≤ (((runKeep (initialVault deployer) ops).accounts u).currentBalance : ℤ)
    ∧ ∀ amount vaultBal userLp userVal stratW payoutOk,
        ((runKeep (initialVault deployer) ops).accounts u).currentBalance < amount →
        (∃ e, withdraw (runKeep (initialVault deployer) ops) u amount vaultBal
            userLp userVal stratW payoutOk = .error e)
        ∧ stepKeep (runKeep (initialVault deployer) ops)
            (Op.withdraw u amount vaultBal userLp userVal stratW payoutOk)
          = runKeep (initialVault deployer) ops := by
  have hinv : VaultInv (runKeep (initialVault deployer) ops) :=
    vaultInv_runKeep ops (fun v => by simp [initialVault, emptyAccount, accInv])
  have hu := hinv u
  unfold accInv at hu
  refine ⟨by omega, by positivity, ?_⟩
  intro amount vaultBal userLp userVal stratW payoutOk hgt
  obtain ⟨e, he⟩ := withdraw_insufficient vaultBal userLp userVal stratW payoutOk hgt
  exact ⟨⟨e, he⟩, stepKeep_error he⟩

/-- Witness for C1 at a concrete run: after creating an account and
depositing 1 USDC (1000000 micro-units), a withdrawal of 2 USDC exceeds the
balance and is rejected. -/
theorem vault_conservation_witness :
    ∃ e, withdraw (runKeep (initialVault 0)
        [Op.createAccount 1 100 0 TrustMode.MANUAL,
         Op.deposit 1 1000000 true none])
        1 2000000 0 0 0 (fun _ => none) true = .error e :=
  ((vault_conservation 0
      [Op.createAccount 1 100 0 TrustMode.MANUAL,
       Op.deposit 1 1000000 true none] 1).2.2
    2000000 0 0 0 (fun _ => none) true (by decide)).1

/-- A concrete reachable state shared by several scenarios: the deployer
(address 9) configures strategy address 5 and backend server 7, then user
1 creates a MANUAL account. -/
def demoBase : VaultState :=
  runKeep (initialVault 9)
    [Op.setYieldStrategy 9 5, Op.setBackendServer 9 7,
     Op.createAccount 1 100 0 TrustMode.MANUAL]

/-- `demoBase` after user 1 deposits 1 USDC, fully forwarded to the
configured pool (the strategy call succeeds and reports 999000 LP). -/
def demoAfterDeposit : VaultState :=
  runKeep demoBase [Op.deposit 1 1000000 true (some 999000)]

/-- C2 (amended).  If a yield strategy is configured and the
pool-forwarding step of `deposit` fails, the entire deposit call fails
and leaves the state unchanged: the ledger credit is rolled back together
with the custody transfer, the failure surfaces as failure of the deposit
call itself, and no distinct retryable pool-forwarding fault exists. -/
theorem deposit_forwarding_failure_atomic (s : VaultState) (caller amount : Nat)
    (transferOk : Bool) (hstrat : s.yieldStrategy ≠ 0) :
    (∃ e, deposit s caller amount transferOk none = .error e)
    ∧ stepKeep s (Op.deposit caller amount transferOk none) = s := by
  have herr : ∃ e, deposit s caller amount transferOk none = .error e := by
    unfold deposit
    split
    · exact ⟨_, rfl⟩
    split
    · exact ⟨_, rfl⟩
    split
    · exact ⟨_, rfl⟩
    split
    · exact ⟨_, rfl⟩
    rcases hc : creditLedger s caller amount with _ | s1
    · exact ⟨_, rfl⟩
    · have hy : s1.yieldStrategy ≠ 0 := by
        rw [creditLedger_some hc]
        exact hstrat
      dsimp only
      unfold routeToYield
      rw [if_pos hy]
      exact ⟨_, rfl⟩
  obtain ⟨e, he⟩ := herr
  exact ⟨⟨e, he⟩, stepKeep_error he⟩

/-- Witness for C2's amended statement on the concrete scenario state. -/
theorem deposit_forwarding_failure_atomic_witness :
    (∃ e, deposit demoBase 1 1000000 true none = .error e)
    ∧ stepKeep demoBase (Op.deposit 1 1000000 true none) = demoBase :=
  deposit_forwarding_failure_atomic demoBase 1 1000000 true (by decide)

/-- C2 counterexample.  With a strategy configured and the strategy call
reverting, the deposit call reports failure (`strategyReverted`) and the
ledger credit does not stand: `totalDeposited` stays 0 and
`totalValueLocked` stays 0, contrary to the claim that the credit
survives a forwarding failure as a distinct retryable fault. -/
theorem deposit_forwarding_failure_cex :
    deposit demoBase 1 1000000 true none = .error .strategyReverted
    ∧ ((stepKeep demoBase (Op.deposit 1 1000000 true none)).accounts 1).totalDeposited = 0
    ∧ (stepKeep demoBase (Op.deposit 1 1000000 true none)).totalValueLocked = 0
    ∧ demoBase.yieldStrategy ≠ 0 :=
  ⟨rfl, rfl, rfl, by decide⟩

/-- C3 (the code evaluated at the failing input).  With a strategy
configured, a ledger balance of 1000000 and a live pool value of 500000,
`getUserTotalBalance` returns only the pool value 500000, not the
1500000 = currentBalance + pool value that the claim (and the function's
own doc comment) require. -/
theorem getUserTotalBalance_drops_ledger_balance :
    getUserTotalBalance demoAfterDeposit 1 500000 = 500000
    ∧ (demoAfterDeposit.accounts 1).currentBalance = 1000000
    ∧ demoAfterDeposit.yieldStrategy ≠ 0
    ∧ specGetUserTotalBalance demoAfterDeposit 1 500000 = 1500000
    ∧ getUserTotalBalance demoAfterDeposit 1 500000
        ≠ specGetUserTotalBalance demoAfterDeposit 1 500000 :=
  ⟨rfl, rfl, by decide, rfl, by decide⟩

/-- C4 (the code evaluated at the failing input).  After a deposit of
1000000 fully forwarded into the pool, `totalValueLocked` still equals
1000000 — the sum of current balances (only account 1 is nonzero) with
nothing subtracted for the forwarded funds — whereas the claim requires
sum minus forwarded = 0. -/
theorem totalValueLocked_ignores_forwarding :
    demoAfterDeposit.totalValueLocked = 1000000
    ∧ demoAfterDeposit.forwardedToPool = 1000000
    ∧ sumBalances demoAfterDeposit [1] = 1000000
    ∧ demoAfterDeposit.totalValueLocked
        ≠ sumBalances demoAfterDeposit [1] - demoAfterDeposit.forwardedToPool :=
  ⟨rfl, rfl, rfl, by decide⟩

theorem authBlocked_eq_not_canInvoke (mode : TrustMode) (caller user backend : Nat) :
    authBlocked mode caller user backend = !canInvoke mode caller user backend := by
  cases mode
  · show (caller != user) = !((false && (caller == backend)) || (true && (caller == user)))
    simp [bne]
  · show (caller != backend) = !((true && (caller == backend)) || (false && (caller == user)))
    simp [bne]

theorem autoSaveCommit_success {s : VaultState} {user amount : Nat} (now : Nat)
    {stratLp : Option Nat}
    (hS : stratLp.isSome = true)
    (hOv1 : (s.accounts user).totalDeposited + amount ≤ UINT256_MAX)
    (hOv2 : (s.accounts user).currentBalance + amount ≤ UINT256_MAX)
    (hOv3 : s.totalValueLocked + amount ≤ UINT256_MAX) :
    ∃ s1, autoSaveCommit s user amount now true stratLp = .ok s1
      ∧ (s1.accounts user).lastSaveTimestamp = now := by
  have hcl : creditLedger s user amount = some { s with
      accounts := setAccount s.accounts user
        { s.accounts user with
          totalDeposited := (s.accounts user).totalDeposited + amount,
          currentBalance := (s.accounts user).currentBalance + amount },
      totalValueLocked := s.totalValueLocked + amount } := by
    unfold creditLedger
    rw [if_pos ⟨hOv1, hOv2, hOv3⟩]
  unfold autoSaveCommit
  rw [if_neg (by decide : ¬(true = false)), hcl]
  dsimp only
  unfold routeToYield
  rcases stratLp with _ | lp
  · exact Bool.noConfusion hS
  · split
    · exact ⟨_, rfl, by simp [setAccount]⟩
    · exact ⟨_, rfl, by simp [setAccount]⟩

theorem autoSaveCommit_not_unauthorized {s : VaultState} {user amount now : Nat}
    {tOk : Bool} {stratLp : Option Nat} :
    autoSaveCommit s user amount now tOk stratLp ≠ .error .unauthorizedCaller := by
  unfold autoSaveCommit
  split
  · simp
  rcases hc : creditLedger s user amount with _ | s1
  · simp
  · dsimp only
    unfold routeToYield
    split
    · rcases stratLp with _ | lp <;> simp
    · simp

/-- C6.  Given an active account, a valid amount, an authorized caller
and successful external calls, `autoSave` fails with `SaveIntervalNotMet`
iff `lastSaveTimestamp ≠ 0` and `now < lastSaveTimestamp +
MIN_SAVE_INTERVAL`; the very first save (`lastSaveTimestamp = 0`)
succeeds regardless of `now`, and every successful `autoSave` sets
`lastSaveTimestamp` to `now`. -/
theorem autoSave_rate_limit (s : VaultState) (caller user amount now : Nat)
    (stratLp : Option Nat)
    (hP : s.paused = false)
    (hA : (s.accounts user).isActive = true)
    (h0 : amount ≠ 0) (hM : amount ≤ MAX_SAVE_AMOUNT)
    (hAuth : canInvoke (s.accounts user).trustMode caller user s.backendServer = true)
    (hS : stratLp.isSome = true)
    (hOv1 : (s.accounts user).totalDeposited + amount ≤ UINT256_MAX)
    (hOv2 : (s.accounts user).currentBalance + amount ≤ UINT256_MAX)
    (hOv3 : s.totalValueLocked + amount ≤ UINT256_MAX)
    (hOv4 : (s.accounts user).lastSaveTimestamp + MIN_SAVE_INTERVAL ≤ UINT256_MAX) :
    (autoSave s caller user amount now true stratLp = .error .saveIntervalNotMet
      ↔ (s.accounts user).lastSaveTimestamp ≠ 0
        ∧ now < (s.accounts user).lastSaveTimestamp + MIN_SAVE_INTERVAL)
    ∧ ((s.accounts user).lastSaveTimestamp = 0 →
        ∃ s1, autoSave s caller user amount now true stratLp = .ok s1
          ∧ (s1.accounts user).lastSaveTimestamp = now)
    ∧ (∀ s1, autoSave s caller user amount now true stratLp = .ok s1 →
        (s1.accounts user).lastSaveTimestamp = now) := by
  have hamt : ¬(amount = 0 ∨ amount > MAX_SAVE_AMOUNT) := by omega
  have hblock : authBlocked (s.accounts user).trustMode caller user s.backendServer
      = false := by
    rw [authBlocked_eq_not_canInvoke, hAuth]
    rfl
  obtain ⟨sC, hok, hlast⟩ := autoSaveCommit_success now hS hOv1 hOv2 hOv3
  have heq : autoSave s caller user amount now true stratLp =
      (if (s.accounts user).lastSaveTimestamp = 0 then
        autoSaveCommit s user amount now true stratLp
      else if now < (s.accounts user).lastSaveTimestamp + MIN_SAVE_INTERVAL then
        .error .saveIntervalNotMet
      else autoSaveCommit s user amount now true stratLp) := by
    unfold autoSave
    rw [hP, hA]
    simp only [Bool.false_eq_true, Bool.true_eq_false, if_false, if_neg hamt, hblock]
    split
    · rfl
    · rfl
  rw [heq]
  by_cases hz : (s.accounts user).lastSaveTimestamp = 0
  · rw [if_pos hz, hok]
    refine ⟨?_, fun _ => ⟨sC, rfl, hlast⟩, ?_⟩
    · simp [hz]
    · intro s1 h1
      simp only [Except.ok.injEq] at h1
      subst h1
      exact hlast
  · rw [if_neg hz]
    by_cases hlt : now < (s.accounts user).lastSaveTimestamp + MIN_SAVE_INTERVAL
    · rw [if_pos hlt]
      refine ⟨by simp [hz, hlt], fun h => absurd h hz, ?_⟩
      intro s1 h1
      exact Except.noConfusion h1
    · rw [if_neg hlt, hok]
      refine ⟨by simp [hlt], fun h => absurd h hz, ?_⟩
      intro s1 h1
      simp only [Except.ok.injEq] at h1
      subst h1
      exact hlast

/-- Witness for C6: the very first save on the fresh MANUAL account of
`demoBase` succeeds at an arbitrary time and stamps it. -/
theorem autoSave_rate_limit_witness :
    ∃ s1, autoSave demoBase 1 1 1000000 12345 true (some 999000) = .ok s1
      ∧ (s1.accounts 1).lastSaveTimestamp = 12345 :=
  (autoSave_rate_limit demoBase 1 1 1000000 12345 (some 999000)
      (by decide) (by decide) (by decide) (by decide) (by decide) rfl
      (by decide) (by decide) (by decide) (by decide)).2.1 (by decide)

/-- C7.  On an active account, with a valid amount and the vault not
paused, `autoSave` fails with `UnauthorizedCaller` iff the Authorization
Gate's decision function denies the caller: it passes iff (AUTO mode and
the caller is the backend server) or (MANUAL mode and the caller is the
account owner). -/
theorem autoSave_authorization (s : VaultState) (caller user amount now : Nat)
    (tOk : Bool) (stratLp : Option Nat)
    (hP : s.paused = false)
    (hA : (s.accounts user).isActive = true)
    (h0 : amount ≠ 0) (hM : amount ≤ MAX_SAVE_AMOUNT) :
    autoSave s caller user amount now tOk stratLp = .error .unauthorizedCaller
      ↔ canInvoke (s.accounts user).trustMode caller user s.backendServer = false := by
  have hamt : ¬(amount = 0 ∨ amount > MAX_SAVE_AMOUNT) := by omega
  unfold autoSave
  rw [hP, hA]
  simp only [Bool.false_eq_true, Bool.true_eq_false, if_false, if_neg hamt]
  rw [authBlocked_eq_not_canInvoke]
  cases hcv : canInvoke (s.accounts user).trustMode caller user s.backendServer with
  | false => simp
  | true =>
      simp only [Bool.not_true, Bool.false_eq_true, if_false, Bool.true_eq_false,
        iff_false]
      split
      · exact autoSaveCommit_not_unauthorized
      split
      · split
        · simp
        · exact autoSaveCommit_not_unauthorized
      · simp

/-- Witness for C7: on the MANUAL account of `demoBase`, a stranger
(address 2) is denied and the denial surfaces as `UnauthorizedCaller`. -/
theorem autoSave_authorization_witness :
    autoSave demoBase 2 1 1000000 0 true none = .error .unauthorizedCaller
      ↔ canInvoke (demoBase.accounts 1).trustMode 2 1 demoBase.backendServer = false :=
  autoSave_authorization demoBase 2 1 1000000 0 true none
    (by decide) (by decide) (by decide) (by decide)

/-- C8.  When `withdraw` covers a shortfall `usdcNeeded` from a nonempty
pool position: if `usdcNeeded` is smaller than the user's current pool
value, exactly `userShares * usdcNeeded / userCurrentValue` (rounded
down) share units are redeemed; if `usdcNeeded` is at least the pool
value, all the user's share units are redeemed. -/
theorem partial_redemption_proportional (userLp userVal needed : Nat)
    (h : userLp ≠ 0) :
    (needed < userVal →
      withdrawFromYieldLp userLp userVal needed = some (userLp * needed / userVal))
    ∧ (userVal ≤ needed →
      withdrawFromYieldLp userLp userVal needed = some userLp) := by
  unfold withdrawFromYieldLp lpToWithdraw
  rw [if_neg h]
  constructor
  · intro hlt
    rw [if_neg (by omega)]
  · intro hge
    rw [if_pos hge]

/-- Witness for C8: 100 shares worth 1000 with a shortfall of 250 redeem
exactly 25 shares. -/
theorem partial_redemption_proportional_witness :
    withdrawFromYieldLp 100 1000 250 = some (100 * 250 / 1000) :=
  (partial_redemption_proportional 100 1000 250 (by decide)).1 (by decide)

/-- C9.  The contract owner can pause the vault; while paused, every call
to `deposit`, `depositFor`, `autoSave` and `withdraw` fails (with the
`EnforcedPause` error), including user withdrawals, while
`createAccount`, `updateGoal` and `updateTrustMode` remain callable. -/
theorem pause_gating (s : VaultState)
    (cD cF cA cW c1 c2 uF uA : Nat)
    (wg sb ng a vb ul uv now : Nat) (m : TrustMode)
    (t : Bool) (lp : Option Nat) (sw : Nat → Option Nat) (p : Bool) :
    pause { s with paused := false } s.owner = .ok { s with paused := true }
    ∧ deposit { s with paused := true } cD a t lp = .error .enforcedPause
    ∧ depositFor { s with paused := true } cF uF a lp = .error .enforcedPause
    ∧ autoSave { s with paused := true } cA uA a now t lp = .error .enforcedPause
    ∧ withdraw { s with paused := true } cW a vb ul uv sw p = .error .enforcedPause
    ∧ ((s.accounts c1).isActive = false → wg ≠ 0 →
        ∃ s1, createAccount { s with paused := true } c1 wg sb m = .ok s1)
    ∧ ((s.accounts c2).isActive = true → ng ≠ 0 →
        ∃ s1, updateGoal { s with paused := true } c2 ng = .ok s1)
    ∧ ((s.accounts c2).isActive = true →
        ∃ s1, updateTrustMode { s with paused := true } c2 m = .ok s1) := by
  refine ⟨?_, rfl, rfl, rfl, rfl, ?_, ?_, ?_⟩
  · unfold pause
    rw [if_neg (by simp), if_neg (by simp)]
  · intro h1 h2
    unfold createAccount
    rw [if_neg (by simp [h1]), if_neg h2]
    exact ⟨_, rfl⟩
  · intro h1 h2
    unfold updateGoal
    rw [if_neg (by simp [h1]), if_neg h2]
    exact ⟨_, rfl⟩
  · intro h1
    unfold updateTrustMode
    rw [if_neg (by simp [h1])]
    exact ⟨_, rfl⟩

/-- Witness for C9 on the concrete `demoBase` state (account 2 inactive,
account 1 active). -/
theorem pause_gating_witness :
    (∃ s1, createAccount { demoBase with paused := true } 2 100 0 TrustMode.AUTO = .ok s1)
    ∧ (∃ s1, updateGoal { demoBase with paused := true } 1 5 = .ok s1)
    ∧ (∃ s1, updateTrustMode { demoBase with paused := true } 1 TrustMode.AUTO = .ok s1) := by
  obtain ⟨-, -, -, -, -, h6, h7, h8⟩ :=
    pause_gating demoBase 1 1 1 1 2 1 1 1 100 0 5 1000000 0 0 0 0 TrustMode.AUTO
      true none (fun _ => none) true
  exact ⟨h6 (by decide) (by decide), h7 (by decide) (by decide), h8 (by decide)⟩

end SavingsVault

namespace VVSYieldStrategy

/-- Initial value of the strategy's `slippageTolerance` storage slot
(basis points). -/
def defaultSlippageTolerance : Nat := 50

/-- The minimum-acceptable-output bound the strategy derives from a raw
amount and the slippage tolerance: `amount * (10000 - slippageTolerance)
/ 10000`. -/
def minOutput (amount slippageTolerance : Nat) : Nat :=
  amount * (10000 - slippageTolerance) / 10000

/-- Arguments of a `swapExactTokensForTokens` router call (the path and
recipient are fixed by the source). -/
structure SwapCall where
  amountIn : Nat
  amountOutMin : Nat
deriving DecidableEq, Repr

/-- Arguments of an `addLiquidity` router call: desired amounts and
minimum amounts for USDC (A) and USDT (B). -/
structure AddLiquidityCall where
  amountADesired : Nat
  amountBDesired : Nat
  amountAMin : Nat
  amountBMin : Nat
deriving DecidableEq, Repr

/-- Arguments of a `removeLiquidity` router call. -/
structure RemoveLiquidityCall where
  liquidity : Nat
  amountAMin : Nat
  amountBMin : Nat
deriving DecidableEq, Repr

/-- The router call issued by `_swapUSDCToUSDT(usdcAmount)`. -/
def swapUSDCToUSDTCall (slippageTolerance usdcAmount : Nat) : SwapCall :=
  { amountIn := usdcAmount,
    amountOutMin := usdcAmount * (10000 - slippageTolerance) / 10000 }

/-- The router call issued by `_swapUSDTToUSDC(usdtAmount)`. -/
def swapUSDTToUSDCCall (slippageTolerance usdtAmount : Nat) : SwapCall :=
  { amountIn := usdtAmount,
    amountOutMin := usdtAmount * (10000 - slippageTolerance) / 10000 }

/-- The router call issued by `_addLiquidity(usdcAmount, usdtAmount)`. -/
def addLiquidityCall (slippageTolerance usdcAmount usdtAmount : Nat) :
    AddLiquidityCall :=
  { amountADesired := usdcAmount, amountBDesired := usdtAmount,
    amountAMin := usdcAmount * (10000 - slippageTolerance) / 10000,
    amountBMin := usdtAmount * (10000 - slippageTolerance) / 10000 }

/-- The router call issued by `_removeLiquidity(liquidity)`: both minimum
amounts are the literal 0 ("Accept any amount"). -/
def removeLiquidityCall (liquidity : Nat) : RemoveLiquidityCall :=
  { liquidity := liquidity, amountAMin := 0, amountBMin := 0 }

/-- Strategy storage plus the strategy contract's own token balances
(`usdcHeld`, `usdtHeld` are the USDC/USDT ERC-20 balances of the strategy
address, which absorb any amounts the router does not consume). -/
structure StrategyState where
  userLiquidityTokens : Nat → Nat
  totalLiquidityTokens : Nat
  usdcHeld : Nat
  usdtHeld : Nat
  slippageTolerance : Nat
  savingsVault : Nat

/-- Error outcomes of strategy operations; `routerReverted` is a revert
of a router call (e.g. an unmet output bound), `overflow` the checked
arithmetic panic. -/
inductive SErr where
  | onlyVault
  | zeroAmount
  | insufficientLiquidity
  | overflow
  | routerReverted
deriving DecidableEq, Repr

/-- Router calls made by one strategy `deposit`. -/
structure DepositTrace where
  swapCall : SwapCall
  addCall : AddLiquidityCall
deriving DecidableEq, Repr

/-- Strategy `deposit(user, amount)`: pull the USDC, swap `amount / 2` to
USDT, add liquidity with the half and the swap output, credit the LP
tokens the router reports.  `swapOut` and `addRes` are the outcomes of
the two router calls (`none` = the router reverted).  The result carries
the trace of the router calls issued.  A router reporting consumed
amounts above the desired amounts could not pull the tokens, so that
outcome also reverts. -/
def strategyDeposit (st : StrategyState) (caller user amount : Nat)
    (swapOut : Option Nat) (addRes : Option (Nat × Nat × Nat)) :
    Except SErr (StrategyState × DepositTrace) :=
  if caller ≠ st.savingsVault then .error .onlyVault
  else if amount = 0 then .error .zeroAmount
  else if st.usdcHeld + amount ≤ SavingsVault.UINT256_MAX then
    let st1 : StrategyState := { st with usdcHeld := st.usdcHeld + amount }
    let halfAmount := amount / 2
    let sc := swapUSDCToUSDTCall st.slippageTolerance halfAmount
    match swapOut with
    | none => .error .routerReverted
    | some usdtAmount =>
      if st1.usdtHeld + usdtAmount ≤ SavingsVault.UINT256_MAX then
        let st2 : StrategyState := { st1 with
          usdcHeld := st1.usdcHeld - halfAmount,
          usdtHeld := st1.usdtHeld + usdtAmount }
        let ac := addLiquidityCall st.slippageTolerance halfAmount usdtAmount
        match addRes with
        | none => .error .routerReverted
        | some (usdcUsed, usdtUsed, liquidity) =>
          if usdcUsed ≤ halfAmount ∧ usdtUsed ≤ usdtAmount then
            if st2.userLiquidityTokens user + liquidity ≤ SavingsVault.UINT256_MAX ∧
                st2.totalLiquidityTokens + liquidity ≤ SavingsVault.UINT256_MAX then
              .ok ({ st2 with
                usdcHeld := st2.usdcHeld - usdcUsed,
                usdtHeld := st2.usdtHeld - usdtUsed,
                userLiquidityTokens := fun v =>
                  if v = user then st2.userLiquidityTokens user + liquidity
                  else st2.userLiquidityTokens v,
                totalLiquidityTokens := st2.totalLiquidityTokens + liquidity },
                { swapCall := sc, addCall := ac })
            else .error .overflow
          else .error .routerReverted
      else .error .overflow
  else .error .overflow

/-- Router calls made by one strategy `withdraw`. -/
structure WithdrawTrace where
  removeCall : RemoveLiquidityCall
  swapCall : SwapCall
deriving DecidableEq, Repr

/-- Strategy `withdraw(user, liquidityTokens)`: remove liquidity, swap all
received USDT back to USDC, return the USDC total to the vault.
`removeRes` and `swapOut` are the outcomes of the two router calls.  The
result carries the returned USDC amount and the trace of the router
calls. -/
def strategyWithdraw (st : StrategyState) (caller user liquidityTokens : Nat)
    (removeRes : Option (Nat × Nat)) (swapOut : Option Nat) :
    Except SErr (StrategyState × Nat × WithdrawTrace) :=
  if caller ≠ st.savingsVault then .error .onlyVault
  else if liquidityTokens = 0 then .error .zeroAmount
  else if st.userLiquidityTokens user < liquidityTokens then
    .error .insufficientLiquidity
  else
    let rc := removeLiquidityCall liquidityTokens
    match removeRes with
    | none => .error .routerReverted
    | some (usdcReceived, usdtReceived) =>
      let sc := swapUSDTToUSDCCall st.slippageTolerance usdtReceived
      match swapOut with
      | none => .error .routerReverted
      | some usdcFromSwap =>
        let usdcAmount := usdcReceived + usdcFromSwap
        if liquidityTokens ≤ st.totalLiquidityTokens then
          .ok ({ st with
            userLiquidityTokens := fun v =>
              if v = user then st.userLiquidityTokens user - liquidityTokens
              else st.userLiquidityTokens v,
            totalLiquidityTokens := st.totalLiquidityTokens - liquidityTokens,
            usdcHeld := st.usdcHeld + usdcReceived + usdcFromSwap - usdcAmount,
            usdtHeld := st.usdtHeld + usdtReceived - usdtReceived },
            usdcAmount, { removeCall := rc, swapCall := sc })
        else .error .overflow

/-- A fresh strategy wired to vault address 3 with the default slippage
tolerance. -/
def demoStrategy : StrategyState :=
  { userLiquidityTokens := fun _ => 0, totalLiquidityTokens := 0,
    usdcHeld := 0, usdtHeld := 0,
    slippageTolerance := defaultSlippageTolerance, savingsVault := 3 }

/-- `demoStrategy` with user 1 holding 1000000 LP tokens. -/
def demoStrategyFunded : StrategyState :=
  { demoStrategy with
    userLiquidityTokens := fun v => if v = 1 then 1000000 else 0,
    totalLiquidityTokens := 1000000 }

/-- C10.  A strategy deposit of `amount` swaps exactly `amount / 2` USDC
to USDT, offers exactly that half plus the swap output to the
add-liquidity call, credits the user (and the total) with exactly the
liquidity the router reports, leaves other users untouched, and any USDC
or USDT the router does not consume — including the 1-unit remainder of
an odd `amount` — stays in the strategy contract, credited to no user. -/
theorem strategy_deposit_split (st : StrategyState) (user amount swapOutV usedA usedB liq : Nat)
    (h0 : amount ≠ 0)
    (hA : usedA ≤ amount / 2) (hB : usedB ≤ swapOutV)
    (hc1 : st.usdcHeld + amount ≤ SavingsVault.UINT256_MAX)
    (hc2 : st.usdtHeld + swapOutV ≤ SavingsVault.UINT256_MAX)
    (hc3 : st.userLiquidityTokens user + liq ≤ SavingsVault.UINT256_MAX)
    (hc4 : st.totalLiquidityTokens + liq ≤ SavingsVault.UINT256_MAX) :
    ∃ st1,
      strategyDeposit st st.savingsVault user amount (some swapOutV)
          (some (usedA, usedB, liq))
        = .ok (st1,
          { swapCall := swapUSDCToUSDTCall st.slippageTolerance (amount / 2),
            addCall := addLiquidityCall st.slippageTolerance (amount / 2) swapOutV })
      ∧ st1.userLiquidityTokens user = st.userLiquidityTokens user + liq
      ∧ st1.totalLiquidityTokens = st.totalLiquidityTokens + liq
      ∧ (∀ v, v ≠ user → st1.userLiquidityTokens v = st.userLiquidityTokens v)
      ∧ st1.usdcHeld = st.usdcHeld + (amount - amount / 2 - usedA)
      ∧ st1.usdtHeld = st.usdtHeld + (swapOutV - usedB)
      ∧ (amount % 2 = 1 → st.usdcHeld + 1 ≤ st1.usdcHeld) := by
  unfold strategyDeposit
  rw [if_neg (by simp), if_neg h0, if_pos hc1]
  dsimp only
  rw [if_pos hc2]
  rw [if_pos ⟨hA, hB⟩, if_pos ⟨hc3, hc4⟩]
  refine ⟨_, rfl, by simp, rfl, fun v hv => by simp [hv], ?_, ?_, ?_⟩
  · show st.usdcHeld + amount - amount / 2 - usedA = st.usdcHeld + (amount - amount / 2 - usedA)
    omega
  · show st.usdtHeld + swapOutV - usedB = st.usdtHeld + (swapOutV - usedB)
    omega
  · intro hodd
    show st.usdcHeld + 1 ≤ st.usdcHeld + amount - amount / 2 - usedA
    omega

/-- Witness for C10 with an odd amount: a deposit of 1000001 swaps
500000, and at least the one-unit remainder stays with the strategy. -/
theorem strategy_deposit_split_witness :
    ∃ st1,
      strategyDeposit demoStrategy 3 1 1000001 (some 499000)
          (some (400000, 450000, 700000))
        = .ok (st1,
          { swapCall := swapUSDCToUSDTCall demoStrategy.slippageTolerance (1000001 / 2),
            addCall := addLiquidityCall demoStrategy.slippageTolerance (1000001 / 2) 499000 })
      ∧ st1.userLiquidityTokens 1 = demoStrategy.userLiquidityTokens 1 + 700000
      ∧ st1.totalLiquidityTokens = demoStrategy.totalLiquidityTokens + 700000
      ∧ (∀ v, v ≠ 1 → st1.userLiquidityTokens v = demoStrategy.userLiquidityTokens v)
      ∧ st1.usdcHeld = demoStrategy.usdcHeld + (1000001 - 1000001 / 2 - 400000)
      ∧ st1.usdtHeld = demoStrategy.usdtHeld + (499000 - 450000)
      ∧ (1000001 % 2 = 1 → demoStrategy.usdcHeld + 1 ≤ st1.usdcHeld) :=
  strategy_deposit_split demoStrategy 1 1000001 499000 400000 450000 700000
    (by decide) (by decide) (by decide) (by decide) (by decide) (by decide) (by decide)

/-- C5 (amended).  Every successful strategy deposit issues its swap and
add-liquidity router calls with minimum-output bounds equal to
`amount * (10000 - slippageTolerance) / 10000` of the respective input
amounts; every successful strategy withdrawal issues its USDT-to-USDC
swap with the same bound, but its remove-liquidity call passes literal 0
for both minimum amounts, accepting any output. -/
theorem slippage_bounds (st : StrategyState) (caller user amount lq : Nat)
    (swapOut : Option Nat) (addRes : Option (Nat × Nat × Nat))
    (removeRes : Option (Nat × Nat)) (swapBackOut : Option Nat) :
    (∀ st1 tr, strategyDeposit st caller user amount swapOut addRes = .ok (st1, tr) →
      tr.swapCall = swapUSDCToUSDTCall st.slippageTolerance (amount / 2)
      ∧ tr.swapCall.amountOutMin = minOutput (amount / 2) st.slippageTolerance
      ∧ tr.addCall.amountAMin = minOutput tr.addCall.amountADesired st.slippageTolerance
      ∧ tr.addCall.amountBMin = minOutput tr.addCall.amountBDesired st.slippageTolerance)
    ∧ (∀ st2 ret wtr,
        strategyWithdraw st caller user lq removeRes swapBackOut = .ok (st2, ret, wtr) →
      wtr.removeCall = removeLiquidityCall lq
      ∧ wtr.removeCall.amountAMin = 0
      ∧ wtr.removeCall.amountBMin = 0
      ∧ wtr.swapCall.amountOutMin = minOutput wtr.swapCall.amountIn st.slippageTolerance) := by
  constructor
  · intro st1 tr h
    unfold strategyDeposit at h
    split at h
    · exact Except.noConfusion h
    split at h
    · exact Except.noConfusion h
    split at h
    · rcases swapOut with _ | usdtAmount
      · exact Except.noConfusion h
      · dsimp only at h
        split at h
        · rcases addRes with _ | ⟨usedA, usedB, liq⟩
          · exact Except.noConfusion h
          · dsimp only at h
            split at h
            · split at h
              · simp only [Except.ok.injEq, Prod.mk.injEq] at h
                obtain ⟨-, htr⟩ := h
                subst htr
                exact ⟨rfl, rfl, rfl, rfl⟩
              · exact Except.noConfusion h
            · exact Except.noConfusion h
        · exact Except.noConfusion h
    · exact Except.noConfusion h
  · intro st2 ret wtr h
    unfold strategyWithdraw at h
    split at h
    · exact Except.noConfusion h
    split at h
    · exact Except.noConfusion h
    split at h
    · exact Except.noConfusion h
    rcases removeRes with _ | ⟨usdcReceived, usdtReceived⟩
    · exact Except.noConfusion h
    · dsimp only at h
      rcases swapBackOut with _ | usdcFromSwap
      · exact Except.noConfusion h
      · dsimp only at h
        split at h
        · simp only [Except.ok.injEq, Prod.mk.injEq] at h
          obtain ⟨-, -, htr⟩ := h
          subst htr
          exact ⟨rfl, rfl, rfl, rfl⟩
        · exact Except.noConfusion h

/-- The router-call trace of a concrete successful deposit of 1000000
through `demoStrategy` (swap output 499000). -/
def demoDepositTrace : DepositTrace :=
  { swapCall := swapUSDCToUSDTCall defaultSlippageTolerance 500000,
    addCall := addLiquidityCall defaultSlippageTolerance 500000 499000 }

/-- The router-call trace of a concrete successful withdrawal of 1000000
LP through `demoStrategyFunded` (500000 USDT received and swapped). -/
def demoWithdrawTrace : WithdrawTrace :=
  { removeCall := removeLiquidityCall 1000000,
    swapCall := swapUSDTToUSDCCall defaultSlippageTolerance 500000 }

/-- Witness for C5's amended statement: both router-call traces of a
concrete successful deposit and a concrete successful withdrawal. -/
theorem slippage_bounds_witness :
    (demoDepositTrace.swapCall
        = swapUSDCToUSDTCall demoStrategy.slippageTolerance (1000000 / 2)
      ∧ demoDepositTrace.swapCall.amountOutMin
        = minOutput (1000000 / 2) demoStrategy.slippageTolerance
      ∧ demoDepositTrace.addCall.amountAMin
        = minOutput demoDepositTrace.addCall.amountADesired demoStrategy.slippageTolerance
      ∧ demoDepositTrace.addCall.amountBMin
        = minOutput demoDepositTrace.addCall.amountBDesired demoStrategy.slippageTolerance)
    ∧ (demoWithdrawTrace.removeCall = removeLiquidityCall 1000000
      ∧ demoWithdrawTrace.removeCall.amountAMin = 0
      ∧ demoWithdrawTrace.removeCall.amountBMin = 0
      ∧ demoWithdrawTrace.swapCall.amountOutMin
        = minOutput demoWithdrawTrace.swapCall.amountIn
            demoStrategyFunded.slippageTolerance) :=
  ⟨(slippage_bounds demoStrategy 3 1 1000000 1000000 (some 499000)
      (some (500000, 499000, 700000)) (some (400000, 500000)) (some 499000)).1
    _ demoDepositTrace rfl,
   (slippage_bounds demoStrategyFunded 3 1 1000000 1000000 (some 499000)
      (some (500000, 499000, 700000)) (some (400000, 500000)) (some 500000)).2
    _ _ demoWithdrawTrace rfl⟩

/-- C5 counterexample.  A concrete successful remove-liquidity call
passes 0 for both minimum amounts, while the claimed bound for its
liquidity amount at the default tolerance is 995000 ≠ 0. -/
theorem removeLiquidity_zero_min_cex :
    ∃ st2 ret wtr,
      strategyWithdraw demoStrategyFunded 3 1 1000000
          (some (400000, 500000)) (some 499000) = .ok (st2, ret, wtr)
      ∧ wtr.removeCall.amountAMin = 0
      ∧ wtr.removeCall.amountBMin = 0
      ∧ minOutput 1000000 demoStrategyFunded.slippageTolerance = 995000
      ∧ wtr.removeCall.amountAMin
          ≠ minOutput wtr.removeCall.liquidity demoStrategyFunded.slippageTolerance :=
  ⟨_, _, _, rfl, rfl, rfl, by decide, by decide⟩

end VVSYieldStrategy
